import Mathlib

/-!
# Verification of the thermal-camera frame pipeline (`open_cam.py`)

A shallow embedding of the program in `open_cam.py`: the acquisition and
normalization pipeline of class `Camera` (`__pull_raw_image`,
`__temps_to_rescaled_uints`, `__process_raw_image`, `cycle_colormap`,
`cycle_interpolation`) and the window/loop logic of class `CameraWindow`
(`start`, `__save_snapshot`, `__update_window`, `__draw_buttons`,
`__process_click_input`).

Floating-point numbers are modelled as exact rationals extended with the
IEEE-754 special values `+inf`, `-inf` and `NaN` (`FVal` below), with the
IEEE propagation rules for the arithmetic the program performs.  Rounding
error of binary64 arithmetic is not modelled: every property proved or
refuted here is decided by margins (whole integer steps, NaN vs. finite)
far larger than one ulp of the quantities involved.
-/

/-- A binary64 value as the program uses it: an exact finite rational, or
one of the IEEE special values.  Finite values carry no rounding. -/
inductive FVal where
  | fin : ℚ → FVal
  | pinf : FVal
  | ninf : FVal
  | nan : FVal
deriving DecidableEq, Repr

/-- IEEE subtraction on `FVal`: NaN propagates, `inf - inf` of equal signs
is NaN, otherwise the rational difference. -/
def fsub : FVal → FVal → FVal
  | .nan, _ => .nan
  | .fin _, .nan => .nan
  | .pinf, .nan => .nan
  | .ninf, .nan => .nan
  | .fin a, .fin b => .fin (a - b)
  | .fin _, .pinf => .ninf
  | .fin _, .ninf => .pinf
  | .pinf, .fin _ => .pinf
  | .ninf, .fin _ => .ninf
  | .pinf, .ninf => .pinf
  | .ninf, .pinf => .ninf
  | .pinf, .pinf => .nan
  | .ninf, .ninf => .nan

/-- IEEE multiplication on `FVal`: NaN propagates, `0 * inf` is NaN,
infinities follow the sign rule. -/
def fmul : FVal → FVal → FVal
  | .nan, _ => .nan
  | .fin _, .nan => .nan
  | .pinf, .nan => .nan
  | .ninf, .nan => .nan
  | .fin a, .fin b => .fin (a * b)
  | .fin a, .pinf => if 0 < a then .pinf else if a < 0 then .ninf else .nan
  | .fin a, .ninf => if 0 < a then .ninf else if a < 0 then .pinf else .nan
  | .pinf, .fin b => if 0 < b then .pinf else if b < 0 then .ninf else .nan
  | .ninf, .fin b => if 0 < b then .ninf else if b < 0 then .pinf else .nan
  | .pinf, .pinf => .pinf
  | .pinf, .ninf => .ninf
  | .ninf, .pinf => .ninf
  | .ninf, .ninf => .pinf

/-- IEEE division on `FVal`: NaN propagates, `0 / 0` and `inf / inf` are
NaN, a nonzero finite over zero is a signed infinity (numpy emits only a
runtime warning for either), a finite over an infinity is zero. -/
def fdiv : FVal → FVal → FVal
  | .nan, _ => .nan
  | .fin _, .nan => .nan
  | .pinf, .nan => .nan
  | .ninf, .nan => .nan
  | .fin a, .fin b =>
      if b = 0 then (if a = 0 then .nan else if 0 < a then .pinf else .ninf)
      else .fin (a / b)
  | .fin _, .pinf => .fin 0
  | .fin _, .ninf => .fin 0
  | .pinf, .fin b => if b < 0 then .ninf else .pinf
  | .ninf, .fin b => if b < 0 then .pinf else .ninf
  | .pinf, .pinf => .nan
  | .pinf, .ninf => .nan
  | .ninf, .pinf => .nan
  | .ninf, .ninf => .nan

/-- Binary minimum with numpy `minimum`/`min`-reduction semantics: NaN
propagates; otherwise `-inf < finite < +inf`. -/
def fmin2 : FVal → FVal → FVal
  | .nan, _ => .nan
  | .fin _, .nan => .nan
  | .pinf, .nan => .nan
  | .ninf, .nan => .nan
  | .ninf, _ => .ninf
  | .fin _, .ninf => .ninf
  | .pinf, .ninf => .ninf
  | .fin a, .fin b => .fin (min a b)
  | .fin a, .pinf => .fin a
  | .pinf, .fin b => .fin b
  | .pinf, .pinf => .pinf

/-- Binary maximum with numpy semantics: NaN propagates; otherwise
`-inf < finite < +inf`. -/
def fmax2 : FVal → FVal → FVal
  | .nan, _ => .nan
  | .fin _, .nan => .nan
  | .pinf, .nan => .nan
  | .ninf, .nan => .nan
  | .pinf, _ => .pinf
  | .fin _, .pinf => .pinf
  | .ninf, .pinf => .pinf
  | .fin a, .fin b => .fin (max a b)
  | .fin a, .ninf => .fin a
  | .ninf, .fin b => .fin b
  | .ninf, .ninf => .ninf

/-- `np.min` over a nonempty array: the NaN-propagating reduction of
`fmin2`.  (`np.min` of an empty array raises; frames are never empty, the
`[]` case is arbitrary.) -/
def npMin : List FVal → FVal
  | [] => .nan
  | x :: xs => xs.foldl fmin2 x

/-- `np.max` over a nonempty array, NaN-propagating. -/
def npMax : List FVal → FVal
  | [] => .nan
  | x :: xs => xs.foldl fmax2 x

/-- The largest finite binary64 value, used by `np.nan_to_num` as the
replacement for `+inf`. -/
def FLOAT64_MAX : ℚ := 17976931348623157 * 10 ^ 292

/-- `np.nan_to_num` with default arguments: NaN becomes `0`, `+inf` the
largest finite binary64 value, `-inf` its negation; finite values are
unchanged (the call returns a fresh array, the input is not mutated). -/
def nanToNum : FVal → FVal
  | .nan => .fin 0
  | .pinf => .fin FLOAT64_MAX
  | .ninf => .fin (-FLOAT64_MAX)
  | .fin q => .fin q

/-- C-style truncation toward zero of a rational, the integer-part step of
a float-to-integer cast. -/
def truncToZero (q : ℚ) : ℤ :=
  if 0 ≤ q then ⌊q⌋ else -⌊-q⌋

/-- `np.uint8` applied to one value: truncate toward zero and wrap modulo
`2^8` (the behaviour observed for in-range and moderately out-of-range
finite values; for NaN or an infinity the C cast is undefined and
platform-dependent — `0` is what x86/ARM produce and is used here, but no
claim is settled on that branch without saying so). -/
def toUint8 : FVal → ℕ
  | .fin q => (truncToZero q % 256).toNat
  | _ => 0

/-- The value the expression `(f - Tmin) * 255 / (Tmax - Tmin)` of
`__temps_to_rescaled_uints` (line 104) takes at one sample `v` of the
already `nan_to_num`-ed array, before the `np.uint8` cast. -/
def rescaleVal (tmin tmax v : FVal) : FVal :=
  fdiv (fmul (fsub v tmin) (.fin 255)) (fsub tmax tmin)

/-- The elementwise values of `__temps_to_rescaled_uints` before the
`np.uint8` cast: `f = np.nan_to_num(f)` (line 103) followed by
`(f - Tmin) * 255 / (Tmax - Tmin)` (line 104). -/
def tempsToRescaledPre (f : List FVal) (tmin tmax : FVal) : List FVal :=
  (f.map nanToNum).map (rescaleVal tmin tmax)

/-- `Camera.__temps_to_rescaled_uints(f, Tmin, Tmax)` (lines 101–106):
`np.nan_to_num`, the affine rescale, and the `np.uint8` cast.  The final
`norm.shape = (24, 32)` only reshapes the 768 values row-major; the flat
order is kept here. -/
def tempsToRescaledUints (f : List FVal) (tmin tmax : FVal) : List ℕ :=
  (tempsToRescaledPre f tmin tmax).map toUint8

/-- The mutable `Camera` fields that `__pull_raw_image` reads or writes.
`blank_image` is the class-level ndarray created at line 35; `temp_min`
and `temp_max` start as `None` (lines 39–40). -/
structure CamState where
  blankImage : List FVal
  tempMin : Option FVal
  tempMax : Option FVal
  currentFrameProcessed : Bool
deriving DecidableEq, Repr

/-- The `Camera` state at program start: `blank_image = np.zeros((24*32,))`,
`temp_min = temp_max = None`. -/
def initCamState : CamState :=
  { blankImage := List.replicate 768 (.fin 0)
    tempMin := none
    tempMax := none
    currentFrameProcessed := true }

/-- The outcome of the external call `self.mlx.getFrame(image)`: either the
768 samples it wrote into the buffer, or a raised `ValueError` /
`OSError`.  On a fault the buffer is taken to be left as it was (a fault
may in reality also leave it partially written; every behaviour in that
envelope leaves the counterexamples below intact). -/
inductive GetFrameResult where
  | ok : List FVal → GetFrameResult
  | valueError : GetFrameResult
  | osError : GetFrameResult
deriving DecidableEq, Repr

/-- What `__pull_raw_image` returns: on success the rescaled `uint8`
pixels, on a caught fault the raw float array `self.blank_image` (the
dynamically-typed Python function really does return values of these two
different shapes/dtypes). -/
inductive RawImage where
  | pixels : List ℕ → RawImage
  | rawFloats : List FVal → RawImage
deriving DecidableEq, Repr

/-- `Camera.__pull_raw_image` (lines 81–99).  Line 83 binds `image` to the
very ndarray `self.blank_image` — not a copy — so a successful
`self.mlx.getFrame(image)` (line 85) fills `self.blank_image` in place
with the read temperatures; this aliasing is modelled by updating
`blankImage` to the read data.  On success, `temp_min`/`temp_max` are the
numpy min/max of the raw buffer (lines 86–87, before any NaN
replacement), and the result is the rescale of that buffer.  On a caught
`ValueError` or `OSError`, `image = self.blank_image` (lines 92/96) and
the state fields are untouched. -/
def pullRawImage (s : CamState) (r : GetFrameResult) : CamState × RawImage :=
  match r with
  | .ok d =>
      let tmin := npMin d
      let tmax := npMax d
      ({ s with
          blankImage := d
          tempMin := some tmin
          tempMax := some tmax
          currentFrameProcessed := false },
       .pixels (tempsToRescaledUints d tmin tmax))
  | .valueError => (s, .rawFloats s.blankImage)
  | .osError => (s, .rawFloats s.blankImage)

/-- `Camera.colormap_list` (line 29). -/
def colormap_list : List String :=
  ["jet", "bwr", "seismic", "coolwarm", "PiYG_r", "tab10", "tab20", "gnuplot2", "brg"]

/-- `Camera.interpolation_list` (line 31), with the cv2 constants spelled
out: `INTER_NEAREST = 0`, `INTER_LINEAR = 1`, `INTER_AREA = 3`,
`INTER_CUBIC = 2`, `INTER_LANCZOS4 = 4`, then the literals `5` and `6`
marking the two scipy paths. -/
def interpolation_list : List ℕ := [0, 1, 3, 2, 4, 5, 6]

/-- `Camera.interpolation_labels_list` (line 32). -/
def interpolation_labels_list : List String :=
  ["Nearest", "Inter Linear", "Inter Area", "Inter Cubic", "Inter Lanczos4",
   "Pure Scipy", "Scipy/CV2 Mixed"]

/-- `Camera.cycle_colormap` (lines 71–74): increment the index, reset to 0
once it reaches the catalog length. -/
def cycle_colormap (colormap_index : ℕ) : ℕ :=
  let i := colormap_index + 1
  if colormap_list.length ≤ i then 0 else i

/-- `Camera.cycle_interpolation` (lines 76–79). -/
def cycle_interpolation (interpolation_index : ℕ) : ℕ :=
  let i := interpolation_index + 1
  if interpolation_list.length ≤ i then 0 else i

/-- One image-processing step of `__process_raw_image`, recorded
abstractly so the order of operations is the object of study. -/
inductive ImgOp where
  | zoom : ℕ → ImgOp
  | applyColorMap : String → ImgOp
  | resize : ℕ → ℕ → ℕ → ImgOp
  | flip : ImgOp
  | bilateralFilter : ImgOp
deriving DecidableEq, Repr

/-- `Camera.__process_raw_image` (lines 108–126) as the sequence of
operations it applies, in order.  Index 5: `ndimage.zoom(image, 25)` then
`cv2.applyColorMap`.  Index 6: `ndimage.zoom(image, 10)`, then
`cv2.applyColorMap`, then `cv2.resize(..., (800, 600), INTER_CUBIC)`.
Otherwise: `cv2.applyColorMap` then `cv2.resize(..., (800, 600),
self.__interpolation())`.  Then always `cv2.flip(..., 1)` and, when
`use_smoothing_filter`, `cv2.bilateralFilter(..., 15, 80, 80)`. -/
def processRawImageOps (interpolation_index : ℕ) (cmap : String)
    (use_smoothing_filter : Bool) : List ImgOp :=
  (if interpolation_index = 5 then
    [.zoom 25, .applyColorMap cmap]
   else if interpolation_index = 6 then
    [.zoom 10, .applyColorMap cmap, .resize 800 600 2]
   else
    [.applyColorMap cmap, .resize 800 600 (interpolation_list.getD interpolation_index 0)])
  ++ [.flip]
  ++ (if use_smoothing_filter then [.bilateralFilter] else [])

/-- `true` iff the operation is a `cv2.applyColorMap`. -/
def isCmapOp : ImgOp → Bool
  | .applyColorMap _ => true
  | _ => false

/-- `true` iff the operation is an `ndimage.zoom`. -/
def isZoomOp : ImgOp → Bool
  | .zoom _ => true
  | _ => false

/-- `true` iff the operation is a `cv2.resize`. -/
def isResizeOp : ImgOp → Bool
  | .resize _ _ _ => true
  | _ => false

/-- A `CameraWindow.Button` (lines 154–158): label, top-left corner, and
bottom-right corner of the hit rectangle.  The bound callback is
identified by the label, which is distinct across the four buttons. -/
structure Button where
  text : String
  startX : ℤ
  startY : ℤ
  endX : ℤ
  endY : ℤ
deriving DecidableEq, Repr

/-- `CameraWindow.__add_button` (lines 199–205): the end corner is the
start corner plus width and height. -/
def mkButton (text : String) (start : ℤ × ℤ) (width height : ℤ) : Button :=
  { text := text
    startX := start.1
    startY := start.2
    endX := start.1 + width
    endY := start.2 + height }

/-- The four buttons added in `CameraWindow.__init__` (lines 174–177), in
declaration order: Save, Colormap, Interpolation, Exit. -/
def defaultButtons : List Button :=
  [mkButton "Save" (0, 550) 80 50,
   mkButton "Colormap" (90, 550) 130 50,
   mkButton "Interpolation" (230, 550) 150 50,
   mkButton "Exit" (390, 550) 70 50]

/-- The hit test of `__process_click_input` (line 258):
`x > start[0] and y > start[1] and x < end[0] and y < end[1]` — strict
interior of the rectangle. -/
def hitTest (b : Button) (x y : ℤ) : Bool :=
  b.startX < x && b.startY < y && x < b.endX && y < b.endY

/-- `cv2.EVENT_LBUTTONUP`. -/
def EVENT_LBUTTONUP : ℕ := 4

/-- `CameraWindow.__process_click_input` (lines 254–259), returning the
labels of the buttons whose callbacks are invoked, in invocation order.
The `for` loop has no `break`: every button passing the hit test fires. -/
def processClickInput (buttons : List Button) (event : ℕ) (x y : ℤ) : List String :=
  if event ≠ EVENT_LBUTTONUP then []
  else (buttons.filter (fun b => hitTest b x y)).map Button.text

/-- What gets drawn onto the per-tick image over the generated frame:
the button overlay of `__draw_buttons`, or the `'Snapshot Saved!'` text
of `__update_window`. -/
inductive Overlay where
  | buttons : Overlay
  | savedNotification : Overlay
deriving DecidableEq, Repr

/-- An image as the render loop manipulates it: the frame returned by
`generate_frame_image` (abstract, of type `α`) together with the overlays
drawn onto it so far, in drawing order. -/
abbrev Image (α : Type) : Type := α × List Overlay

/-- The mutable `CameraWindow` fields the loop body touches:
`queue_save_snapshot` (line 164) and `snapshot_saved_at` (line 168,
seconds of `time.monotonic`, rational here). -/
structure WinState where
  queueSaveSnapshot : Bool
  snapshotSavedAt : Option ℚ
deriving DecidableEq, Repr

/-- The observable effects of one tick: the image written to disk by
`cv2.imwrite`, if any, and the image handed to `cv2.imshow`. -/
structure TickOutput (α : Type) where
  savedImage : Option (Image α)
  windowImage : Image α

/-- One iteration of the `while` body of `CameraWindow.start`
(lines 182–192) on the non-fault path, at monotonic time `now`, where
`base` is the frame `generate_frame_image` returned this tick (line 184).

* If `queue_save_snapshot`, `__save_snapshot` (lines 238–244) writes
  `current_image` to disk as it is — no overlay has been drawn on it —
  then records `snapshot_saved_at = now` and clears the flag; otherwise
  `__draw_buttons` (lines 221–232) draws the button overlay.
* `__update_window` (lines 207–219) then draws the `'Snapshot Saved!'`
  text on top whenever `snapshot_saved_at` is set and less than 1 second
  old, clears `snapshot_saved_at` once it is 1 second old or older, and
  shows the image.
* `__process_events` (lines 246–252) finally dispatches input;
  `saveClicked` tells whether a pointer release on the Save button queued
  a snapshot for the next tick (line 236). -/
def tick {α : Type} (s : WinState) (now : ℚ) (base : α) (saveClicked : Bool) :
    WinState × TickOutput α :=
  let img0 : Image α := (base, [])
  let step2 : WinState × Option (Image α) × Image α :=
    if s.queueSaveSnapshot then
      ({ queueSaveSnapshot := false, snapshotSavedAt := some now }, some img0, img0)
    else
      (s, none, (base, [.buttons]))
  let s1 := step2.1
  let saved := step2.2.1
  let img1 := step2.2.2
  let step3 : WinState × Image α :=
    match s1.snapshotSavedAt with
    | some t =>
        if now - t < 1 then (s1, (img1.1, img1.2 ++ [.savedNotification]))
        else ({ s1 with snapshotSavedAt := none }, img1)
    | none => (s1, img1)
  let s2 := step3.1
  let img2 := step3.2
  let s3 := if saveClicked then { s2 with queueSaveSnapshot := true } else s2
  (s3, { savedImage := saved, windowImage := img2 })

/-- A Python exception value as the loop's `try`/`except` sees it. -/
inductive PyExc where
  | runtimeError : String → PyExc
  | attributeError : String → PyExc
  | otherError : String → PyExc
deriving DecidableEq, Repr

/-- Python-3 attribute lookup of the name `message` on an exception
object.  `BaseException` — and hence `RuntimeError` — has had no
attribute `message` since Python 3.0 (it was removed with PEP 352), and
`adafruit_mlx90640` raises plain `RuntimeError('Too many retries')`, so
the lookup itself raises `AttributeError`. -/
def getattrMessage : PyExc → Except PyExc String
  | _ => .error (.attributeError "RuntimeError object has no attribute message")

/-- How one iteration of `CameraWindow.start` ends: run the next
iteration, or terminate the loop with a propagating exception. -/
inductive LoopStep where
  | continueLoop : LoopStep
  | propagate : PyExc → LoopStep
deriving DecidableEq, Repr

/-- The `try`/`except RuntimeError` wrapper of `CameraWindow.start`
(lines 182–197) around one loop body outcome.  A raised `RuntimeError`
enters the handler, which evaluates `error.message` (line 194); in
Python 3 that attribute access itself raises, and an exception raised
inside an `except` block propagates out of the loop.  Were the lookup to
succeed, `'Too many retries'` would `continue` and anything else
`raise`.  Exceptions of other classes are not caught. -/
def startTickCatch (body : Except PyExc Unit) : LoopStep :=
  match body with
  | .ok _ => .continueLoop
  | .error e =>
    match e with
    | .runtimeError msg =>
        match getattrMessage (.runtimeError msg) with
        | .ok m => if m = "Too many retries" then .continueLoop else .propagate e
        | .error e2 => .propagate e2
    | _ => .propagate e

/-- The spec's ramp scenario frame: 768 samples `0.0, 1.0, ..., 767.0`. -/
def rampFrame : List FVal := (List.range 768).map (fun i : ℕ => .fin (i : ℚ))

/-- The spec's uniform scenario frame: 768 copies of `20.0`. -/
def uniformFrame : List FVal := List.replicate 768 (.fin 20)

/-- A frame whose first sample is NaN and whose other 767 samples are `1.0`. -/
def nanFrame : List FVal := .nan :: List.replicate 767 (.fin 1)

/-- A frame of 768 copies of `1.0`, standing for a successful nonzero read. -/
def onesFrame : List FVal := List.replicate 768 (.fin 1)

theorem fmin2_nan_right (a : FVal) : fmin2 a .nan = .nan := by
  cases a <;> rfl

theorem foldl_fmin2_nan (l : List FVal) : l.foldl fmin2 .nan = .nan := by
  induction l with
  | nil => rfl
  | cons a l ih => simpa [List.foldl] using ih

theorem foldl_fmin2_mem_nan (l : List FVal) (acc : FVal) (h : .nan ∈ l) :
    l.foldl fmin2 acc = .nan := by
  induction l generalizing acc with
  | nil => cases h
  | cons a l ih =>
    rcases List.mem_cons.mp h with rfl | hl
    · simpa [List.foldl, fmin2_nan_right] using foldl_fmin2_nan l
    · exact ih _ hl

/-- `np.min` of an array containing a NaN is NaN. -/
theorem npMin_eq_nan_of_mem (l : List FVal) (h : .nan ∈ l) : npMin l = .nan := by
  cases l with
  | nil => rfl
  | cons a l =>
    rcases List.mem_cons.mp h with rfl | hl
    · exact foldl_fmin2_nan l
    · exact foldl_fmin2_mem_nan l a hl

theorem fmax2_nan_right (a : FVal) : fmax2 a .nan = .nan := by
  cases a <;> rfl

theorem foldl_fmax2_nan (l : List FVal) : l.foldl fmax2 .nan = .nan := by
  induction l with
  | nil => rfl
  | cons a l ih => simpa [List.foldl] using ih

theorem foldl_fmax2_mem_nan (l : List FVal) (acc : FVal) (h : .nan ∈ l) :
    l.foldl fmax2 acc = .nan := by
  induction l generalizing acc with
  | nil => cases h
  | cons a l ih =>
    rcases List.mem_cons.mp h with rfl | hl
    · simpa [List.foldl, fmax2_nan_right] using foldl_fmax2_nan l
    · exact ih _ hl

/-- `np.max` of an array containing a NaN is NaN. -/
theorem npMax_eq_nan_of_mem (l : List FVal) (h : .nan ∈ l) : npMax l = .nan := by
  cases l with
  | nil => rfl
  | cons a l =>
    rcases List.mem_cons.mp h with rfl | hl
    · exact foldl_fmax2_nan l
    · exact foldl_fmax2_mem_nan l a hl

/-- With a NaN minimum every rescaled value is NaN, whatever the maximum
and the sample. -/
theorem rescaleVal_nan_tmin (tmax v : FVal) : rescaleVal .nan tmax v = .nan := by
  cases tmax <;> cases v <;> rfl

/-- C7: from any in-range index, `cycle_colormap` and `cycle_interpolation`
advance by exactly 1 modulo their catalog length, stay in range, and
return to the start after catalog-length many calls. -/
theorem cycle_selectors_wrap (i j : ℕ)
    (hi : i < colormap_list.length) (hj : j < interpolation_list.length) :
    cycle_colormap i = (i + 1) % colormap_list.length ∧
    cycle_colormap i < colormap_list.length ∧
    cycle_colormap^[colormap_list.length] i = i ∧
    cycle_interpolation j = (j + 1) % interpolation_list.length ∧
    cycle_interpolation j < interpolation_list.length ∧
    cycle_interpolation^[interpolation_list.length] j = j := by
  have hi9 : i < 9 := hi
  have hj7 : j < 7 := hj
  interval_cases i <;> interval_cases j <;> decide

/-- C7 witness: the two selectors evaluated at indices 8 and 3. -/
theorem cycle_selectors_wrap_witness :
    cycle_colormap 8 = (8 + 1) % colormap_list.length ∧
    cycle_colormap 8 < colormap_list.length ∧
    cycle_colormap^[colormap_list.length] 8 = 8 ∧
    cycle_interpolation 3 = (3 + 1) % interpolation_list.length ∧
    cycle_interpolation 3 < interpolation_list.length ∧
    cycle_interpolation^[interpolation_list.length] 3 = 3 :=
  cycle_selectors_wrap 8 3 (by decide) (by decide)

/-- C8: a tick raising `RuntimeError('Too many retries')` is NOT looped
past — the handler's `error.message` lookup raises `AttributeError`,
which propagates and terminates the loop; other exception classes also
propagate.  (The claim, matching the code's evident intent, says this
`RuntimeError` is caught and the loop continues.) -/
theorem too_many_retries_not_caught :
    startTickCatch (.error (.runtimeError "Too many retries"))
      = .propagate (.attributeError "RuntimeError object has no attribute message") ∧
    startTickCatch (.error (.runtimeError "Too many retries")) ≠ .continueLoop ∧
    startTickCatch (.error (.otherError "KeyboardInterrupt"))
      = .propagate (.otherError "KeyboardInterrupt") ∧
    startTickCatch (.ok ()) = .continueLoop := by
  refine ⟨rfl, by decide, rfl, rfl⟩

/-- C9 counterexample: with the pure-scipy selection (index 5) the zoom is
applied first and the colormap second, so the colormap does NOT come
before the zoom as the claim states. -/
theorem scipy_cmap_after_zoom_cex :
    processRawImageOps 5 "jet" true
      = [.zoom 25, .applyColorMap "jet", .flip, .bilateralFilter] ∧
    ¬ ((processRawImageOps 5 "jet" true).findIdx isCmapOp
        < (processRawImageOps 5 "jet" true).findIdx isZoomOp) := by
  decide

/-- C9 amended: on the two scipy paths (indices 5 and 6) the
`ndimage.zoom` comes BEFORE the colormap — the reverse of the cv2 paths
(indices 0–4), which colorize before resizing and never zoom. -/
theorem scipy_zoom_before_cmap (i : ℕ) (cmap : String) (s : Bool) :
    ((i = 5 ∨ i = 6) →
      (processRawImageOps i cmap s).findIdx isZoomOp
        < (processRawImageOps i cmap s).findIdx isCmapOp) ∧
    (i < 5 →
      (processRawImageOps i cmap s).findIdx isCmapOp
        < (processRawImageOps i cmap s).findIdx isResizeOp ∧
      ∀ op ∈ processRawImageOps i cmap s, isZoomOp op = false) := by
  constructor
  · rintro (rfl | rfl) <;> cases s <;>
      simp [processRawImageOps, isZoomOp, isCmapOp, List.findIdx_cons]
  · intro hi
    interval_cases i <;> cases s <;>
      simp [processRawImageOps, isZoomOp, isCmapOp, isResizeOp,
        List.findIdx_cons, interpolation_list]

/-- C9 witness: the order evaluated on the pure-scipy path and on a cv2
path. -/
theorem scipy_zoom_before_cmap_witness :
    ((processRawImageOps 5 "jet" true).findIdx isZoomOp
      < (processRawImageOps 5 "jet" true).findIdx isCmapOp) ∧
    ((processRawImageOps 3 "jet" true).findIdx isCmapOp
      < (processRawImageOps 3 "jet" true).findIdx isResizeOp) :=
  ⟨(scipy_zoom_before_cmap 5 "jet" true).1 (Or.inl rfl),
   ((scipy_zoom_before_cmap 3 "jet" true).2 (by decide)).1⟩

/-- Filtering a duplicate-free list in which exactly one element satisfies
the predicate yields exactly that element. -/
theorem filter_eq_singleton_of_unique {α : Type} (p : α → Bool) (l : List α) (b : α)
    (hnd : l.Nodup) (hb : b ∈ l) (hpb : p b = true)
    (huniq : ∀ b' ∈ l, b' ≠ b → p b' = false) :
    l.filter p = [b] := by
  induction l with
  | nil => cases hb
  | cons a l ih =>
    have hnd' := List.nodup_cons.mp hnd
    rcases List.mem_cons.mp hb with rfl | hbl
    · rw [List.filter_cons_of_pos hpb]
      have : l.filter p = [] := List.filter_eq_nil_iff.mpr (fun x hx => by
        have hxb : x ≠ b := fun h => hnd'.1 (h ▸ hx)
        simp [huniq x (List.mem_cons_of_mem _ hx) hxb])
      rw [this]
    · have hab : a ≠ b := fun h => hnd'.1 (h ▸ hbl)
      rw [List.filter_cons_of_neg (by simp [huniq a (List.mem_cons_self a l) hab])]
      exact ih hnd'.2 hbl (fun b' hb' => huniq b' (List.mem_cons_of_mem _ hb'))

/-- C6: for a pointer release at any `(x, y)`: if no default button's
rectangle strictly contains the point, no callback is invoked; if exactly
one does, exactly that button's callback is invoked; and no point is
strictly inside two distinct default buttons' rectangles (the four
rectangles are pairwise disjoint). -/
theorem click_dispatch (x y : ℤ) :
    ((∀ b ∈ defaultButtons, hitTest b x y = false) →
        processClickInput defaultButtons EVENT_LBUTTONUP x y = []) ∧
    (∀ b ∈ defaultButtons, hitTest b x y = true →
        (∀ b' ∈ defaultButtons, b' ≠ b → hitTest b' x y = false) →
        processClickInput defaultButtons EVENT_LBUTTONUP x y = [b.text]) ∧
    (∀ b1 ∈ defaultButtons, ∀ b2 ∈ defaultButtons,
        hitTest b1 x y = true → hitTest b2 x y = true → b1 = b2) := by
  refine ⟨?_, ?_, ?_⟩
  · intro hnone
    simp only [processClickInput, ne_eq, not_true_eq_false, if_false]
    rw [List.filter_eq_nil_iff.mpr (fun b hb => by simp [hnone b hb])]
    rfl
  · intro b hb hpb huniq
    simp only [processClickInput, ne_eq, not_true_eq_false, if_false]
    rw [filter_eq_singleton_of_unique _ defaultButtons b (by decide) hb hpb huniq]
    rfl
  · intro b1 h1 b2 h2 hh1 hh2
    fin_cases h1 <;> fin_cases h2 <;> first
      | rfl
      | (exfalso
         simp only [hitTest, mkButton, defaultButtons, Bool.and_eq_true,
           decide_eq_true_eq] at hh1 hh2
         omega)

/-- C6 witness: a release at `(40, 580)` inside the Save rectangle invokes
exactly the Save callback, and a release at `(500, 10)` outside every
rectangle invokes nothing. -/
theorem click_dispatch_witness :
    processClickInput defaultButtons EVENT_LBUTTONUP 40 580 = ["Save"] ∧
    processClickInput defaultButtons EVENT_LBUTTONUP 500 10 = [] :=
  ⟨(click_dispatch 40 580).2.1 (mkButton "Save" (0, 550) 80 50)
      (by decide) (by decide) (by decide),
   (click_dispatch 500 10).1 (by decide)⟩

/-- C5 counterexample: on a tick half a second after a save (no new save
queued), the window image carries BOTH the button overlay and the
`'Snapshot Saved!'` notification — the buttons are still drawn, not
replaced by the notification as the claim states. -/
theorem saved_notification_keeps_buttons_cex :
    (tick (α := Unit) ⟨false, some 0⟩ (1/2) () false).2.windowImage
      = ((), [.buttons, .savedNotification]) ∧
    Overlay.buttons ∈ (tick (α := Unit) ⟨false, some 0⟩ (1/2) () false).2.windowImage.2 := by
  have h : (tick (α := Unit) ⟨false, some 0⟩ (1/2) () false).2.windowImage
      = ((), [.buttons, .savedNotification]) := by
    norm_num [tick]
  exact ⟨h, by rw [show (tick (α := Unit) ⟨false, some 0⟩ (1/2) () false).2.windowImage.2
    = [.buttons, .savedNotification] from congrArg Prod.snd h]; decide⟩

/-- C5 amended: a queued save makes the tick write the frame with no
overlay and start the notification window; for 1 second after a save,
each non-save tick draws the notification IN ADDITION to the buttons;
once 1 second has elapsed, the tick draws only the buttons and clears the
saved-at timestamp. -/
theorem snapshot_tick_overlays {α : Type} (s : WinState) (now t : ℚ) (base : α)
    (saveClicked : Bool) :
    (s.queueSaveSnapshot = true →
        (tick s now base saveClicked).2.savedImage = some (base, []) ∧
        (tick s now base saveClicked).1.snapshotSavedAt = some now) ∧
    (s.queueSaveSnapshot = false → s.snapshotSavedAt = some t → now - t < 1 →
        (tick s now base saveClicked).2.windowImage = (base, [.buttons, .savedNotification]) ∧
        (tick s now base saveClicked).2.savedImage = none) ∧
    (s.queueSaveSnapshot = false → s.snapshotSavedAt = some t → 1 ≤ now - t →
        (tick s now base saveClicked).2.windowImage = (base, [.buttons]) ∧
        (tick s now base saveClicked).1.snapshotSavedAt = none) := by
  obtain ⟨q, sa⟩ := s
  refine ⟨?_, ?_, ?_⟩
  · intro hq
    subst hq
    cases saveClicked <;> simp [tick]
  · intro hq ht hlt
    subst hq
    subst ht
    cases saveClicked <;> simp [tick, hlt]
  · intro hq ht hge
    subst hq
    subst ht
    cases saveClicked <;> simp [tick, not_lt.mpr hge]

/-- C5 witness: a save tick writes the bare frame, and a tick 1.5 seconds
after a save draws only the buttons and clears the timestamp. -/
theorem snapshot_tick_overlays_witness :
    ((tick (α := Unit) ⟨true, some (1/4 : ℚ)⟩ (1/2) () false).2.savedImage = some ((), []) ∧
     (tick (α := Unit) ⟨true, some (1/4 : ℚ)⟩ (1/2) () false).1.snapshotSavedAt
       = some (1/2 : ℚ)) ∧
    ((tick (α := Unit) ⟨false, some (0 : ℚ)⟩ (3/2) () false).2.windowImage
       = ((), [.buttons]) ∧
     (tick (α := Unit) ⟨false, some (0 : ℚ)⟩ (3/2) () false).1.snapshotSavedAt = none) :=
  ⟨(snapshot_tick_overlays ⟨true, some (1/4)⟩ (1/2) (1/4) () false).1 rfl,
   (snapshot_tick_overlays ⟨false, some 0⟩ (3/2) 0 () false).2.2 rfl rfl (by norm_num)⟩

/-- C10: on a tick with a save queued, the file is written from the frame
exactly as `generate_frame_image` returned it — no button overlay and no
notification text, whatever the previous save time — and afterwards the
saved-at timestamp is `now` and the queued flag is down unless the Save
button was clicked again during this very tick's event poll. -/
theorem save_tick_writes_clean_frame {α : Type} (s : WinState) (now : ℚ) (base : α)
    (saveClicked : Bool) (hq : s.queueSaveSnapshot = true) :
    (tick s now base saveClicked).2.savedImage = some (base, []) ∧
    (∀ img ∈ (tick s now base saveClicked).2.savedImage,
        Overlay.buttons ∉ img.2 ∧ Overlay.savedNotification ∉ img.2) ∧
    (tick s now base saveClicked).1.snapshotSavedAt = some now ∧
    (tick s now base saveClicked).1.queueSaveSnapshot = saveClicked := by
  obtain ⟨q, sa⟩ := s
  subst hq
  cases saveClicked <;> simp [tick]

/-- C10 witness: a save tick 0.25 seconds after a previous save, with no
new click. -/
theorem save_tick_writes_clean_frame_witness :
    (tick (α := Unit) ⟨true, some (1/4 : ℚ)⟩ (1/2) () false).2.savedImage = some ((), []) ∧
    (∀ img ∈ (tick (α := Unit) ⟨true, some (1/4 : ℚ)⟩ (1/2) () false).2.savedImage,
        Overlay.buttons ∉ img.2 ∧ Overlay.savedNotification ∉ img.2) ∧
    (tick (α := Unit) ⟨true, some (1/4 : ℚ)⟩ (1/2) () false).1.snapshotSavedAt
      = some (1/2 : ℚ) ∧
    (tick (α := Unit) ⟨true, some (1/4 : ℚ)⟩ (1/2) () false).1.queueSaveSnapshot = false :=
  save_tick_writes_clean_frame ⟨true, some (1/4)⟩ (1/2) () false rfl

/-- One sample of the rescale on finite data: the `np.uint8` cast
truncates the quotient, and the result is at most 255. -/
theorem toUint8_rescale_fin (tmin tmax v : ℚ) (hlt : tmin < tmax)
    (h1 : tmin ≤ v) (h2 : v ≤ tmax) :
    toUint8 (rescaleVal (.fin tmin) (.fin tmax) (nanToNum (.fin v)))
      = (⌊(v - tmin) * 255 / (tmax - tmin)⌋).toNat ∧
    (⌊(v - tmin) * 255 / (tmax - tmin)⌋).toNat ≤ 255 := by
  have hd : tmax - tmin ≠ 0 := sub_ne_zero.mpr hlt.ne'
  have hq0 : (0:ℚ) ≤ (v - tmin) * 255 / (tmax - tmin) :=
    div_nonneg (mul_nonneg (sub_nonneg.mpr h1) (by norm_num)) (sub_pos.mpr hlt).le
  have hq255 : (v - tmin) * 255 / (tmax - tmin) ≤ 255 := by
    rw [div_le_iff₀ (sub_pos.mpr hlt)]
    nlinarith [sub_le_sub_right h2 tmin]
  have hfl0 : (0:ℤ) ≤ ⌊(v - tmin) * 255 / (tmax - tmin)⌋ := Int.floor_nonneg.mpr hq0
  have hfl255 : ⌊(v - tmin) * 255 / (tmax - tmin)⌋ ≤ 255 := by
    calc ⌊(v - tmin) * 255 / (tmax - tmin)⌋ ≤ ⌊(255:ℚ)⌋ := Int.floor_le_floor hq255
    _ = 255 := by norm_num
  constructor
  · simp only [nanToNum, rescaleVal, fsub, fmul, fdiv, if_neg hd]
    simp only [toUint8, truncToZero, if_pos hq0]
    rw [Int.emod_eq_of_lt hfl0 (by omega)]
  · omega

/-- C1 amended: for finite bounds with `max > min` enclosing every sample,
each normalized pixel is the TRUNCATION (floor) of
`(value - min) * 255 / (max - min)` — not its rounding — every pixel lies
in `[0, 255]`, a sample equal to `min` maps to 0, and a sample equal to
`max` maps to 255. -/
theorem rescale_truncates (f : List ℚ) (tmin tmax : ℚ) (hlt : tmin < tmax)
    (hbound : ∀ v ∈ f, tmin ≤ v ∧ v ≤ tmax) :
    tempsToRescaledUints (f.map .fin) (.fin tmin) (.fin tmax)
      = f.map (fun v => (⌊(v - tmin) * 255 / (tmax - tmin)⌋).toNat) ∧
    (∀ p ∈ tempsToRescaledUints (f.map .fin) (.fin tmin) (.fin tmax), p ≤ 255) ∧
    (∀ i : ℕ, f[i]? = some tmin →
        (tempsToRescaledUints (f.map .fin) (.fin tmin) (.fin tmax))[i]? = some 0) ∧
    (∀ i : ℕ, f[i]? = some tmax →
        (tempsToRescaledUints (f.map .fin) (.fin tmin) (.fin tmax))[i]? = some 255) := by
  have hd : tmax - tmin ≠ 0 := sub_ne_zero.mpr hlt.ne'
  have key : tempsToRescaledUints (f.map .fin) (.fin tmin) (.fin tmax)
      = f.map (fun v => (⌊(v - tmin) * 255 / (tmax - tmin)⌋).toNat) := by
    have hmap : tempsToRescaledUints (f.map .fin) (.fin tmin) (.fin tmax)
        = f.map (fun v => toUint8 (rescaleVal (.fin tmin) (.fin tmax) (nanToNum (.fin v)))) := by
      simp [tempsToRescaledUints, tempsToRescaledPre, List.map_map, Function.comp]
    rw [hmap]
    exact List.map_congr_left fun v hv =>
      (toUint8_rescale_fin tmin tmax v hlt (hbound v hv).1 (hbound v hv).2).1
  refine ⟨key, ?_, ?_, ?_⟩
  · intro p hp
    rw [key] at hp
    obtain ⟨v, hv, rfl⟩ := List.mem_map.mp hp
    exact (toUint8_rescale_fin tmin tmax v hlt (hbound v hv).1 (hbound v hv).2).2
  · intro i hi
    rw [key, List.getElem?_map, hi]
    simp
  · intro i hi
    rw [key, List.getElem?_map, hi]
    have h255 : (tmax - tmin) * 255 / (tmax - tmin) = 255 := by
      rw [mul_comm, mul_div_assoc, div_self hd, mul_one]
    simp [h255]

/-- C1 witness: the rescale evaluated on the frame `[0, 1, 2]` with
`min = 0`, `max = 2`. -/
theorem rescale_truncates_witness :
    tempsToRescaledUints ([0, 1, 2].map .fin) (.fin 0) (.fin 2) = [0, 127, 255] := by
  have h := (rescale_truncates [0, 1, 2] 0 2 (by norm_num)
    (by intro v hv; fin_cases hv <;> norm_num)).1
  rw [h]
  norm_num
  omega

theorem foldl_fmin2_map_fin (l : List ℚ) (a : ℚ) :
    (l.map FVal.fin).foldl fmin2 (.fin a) = .fin (l.foldl min a) := by
  induction l generalizing a with
  | nil => rfl
  | cons x l ih => simpa [fmin2] using ih (min a x)

theorem foldl_fmax2_map_fin (l : List ℚ) (a : ℚ) :
    (l.map FVal.fin).foldl fmax2 (.fin a) = .fin (l.foldl max a) := by
  induction l generalizing a with
  | nil => rfl
  | cons x l ih => simpa [fmax2] using ih (max a x)

theorem foldl_min_of_le (a : ℚ) (l : List ℚ) :
    (∀ x ∈ l, a ≤ x) → l.foldl min a = a := by
  induction l with
  | nil => intro _; rfl
  | cons x l ih =>
    intro h
    rw [List.foldl_cons, min_eq_left (h x (List.mem_cons_self x l))]
    exact ih fun y hy => h y (List.mem_cons_of_mem _ hy)

theorem foldl_max_of_le (a : ℚ) (l : List ℚ) :
    (∀ x ∈ l, x ≤ a) → l.foldl max a = a := by
  induction l with
  | nil => intro _; rfl
  | cons x l ih =>
    intro h
    rw [List.foldl_cons, max_eq_left (h x (List.mem_cons_self x l))]
    exact ih fun y hy => h y (List.mem_cons_of_mem _ hy)

/-- `np.min` of a finite constant-bounded-below list headed by its bound. -/
theorem npMin_fin_cons_replicate (a b : ℚ) (n : ℕ) (hab : a ≤ b) :
    npMin (.fin a :: List.replicate n (.fin b)) = .fin a := by
  rw [show List.replicate n (FVal.fin b) = (List.replicate n b).map FVal.fin from
      (List.map_replicate).symm,
    show npMin (FVal.fin a :: (List.replicate n b).map FVal.fin)
      = ((List.replicate n b).map FVal.fin).foldl fmin2 (.fin a) from rfl,
    foldl_fmin2_map_fin,
    foldl_min_of_le a _ (fun x hx => (List.eq_of_mem_replicate hx) ▸ hab)]

/-- `np.max` of a finite constant-bounded-above list headed by its bound. -/
theorem npMax_fin_cons_replicate (a b : ℚ) (n : ℕ) (hba : b ≤ a) :
    npMax (.fin a :: List.replicate n (.fin b)) = .fin a := by
  rw [show List.replicate n (FVal.fin b) = (List.replicate n b).map FVal.fin from
      (List.map_replicate).symm,
    show npMax (FVal.fin a :: (List.replicate n b).map FVal.fin)
      = ((List.replicate n b).map FVal.fin).foldl fmax2 (.fin a) from rfl,
    foldl_fmax2_map_fin,
    foldl_max_of_le a _ (fun x hx => (List.eq_of_mem_replicate hx) ▸ hba)]

theorem npMin_append_single (l : List FVal) (x : FVal) (h : l ≠ []) :
    npMin (l ++ [x]) = fmin2 (npMin l) x := by
  cases l with
  | nil => cases h rfl
  | cons a t => simp [npMin, List.foldl_append]

theorem npMax_append_single (l : List FVal) (x : FVal) (h : l ≠ []) :
    npMax (l ++ [x]) = fmax2 (npMax l) x := by
  cases l with
  | nil => cases h rfl
  | cons a t => simp [npMax, List.foldl_append]

/-- `np.min` of the ramp `0.0 .. n` is 0. -/
theorem npMin_ramp_general (n : ℕ) :
    npMin ((List.range (n + 1)).map (fun i : ℕ => FVal.fin (i : ℚ))) = .fin 0 := by
  induction n with
  | zero => rfl
  | succ n ih =>
    rw [List.range_succ, List.map_append]
    simp only [List.map_cons, List.map_nil]
    rw [npMin_append_single _ _ (by simp), ih]
    simp only [fmin2, FVal.fin.injEq]
    exact min_eq_left (by positivity)

/-- `np.max` of the ramp `0.0 .. n` is `n`. -/
theorem npMax_ramp_general (n : ℕ) :
    npMax ((List.range (n + 1)).map (fun i : ℕ => FVal.fin (i : ℚ))) = .fin (n : ℚ) := by
  induction n with
  | zero => rfl
  | succ n ih =>
    rw [List.range_succ, List.map_append]
    simp only [List.map_cons, List.map_nil]
    rw [npMax_append_single _ _ (by simp), ih]
    simp only [fmax2, FVal.fin.injEq]
    rw [max_eq_right]
    push_cast
    linarith

/-- C1 counterexample: on the spec's ramp scenario frame
`0.0, 1.0, ..., 767.0`, whose min is 0 and max is 767, the pixel at
index 2 is 0 — the `np.uint8` cast truncates `510/767 ≈ 0.665` — while
the claim's formula `round(2 * 255 / 767)` gives 1. -/
theorem rescale_round_cex :
    npMin rampFrame = .fin 0 ∧ npMax rampFrame = .fin 767 ∧
    (tempsToRescaledUints rampFrame (.fin 0) (.fin 767))[2]? = some 0 ∧
    round ((2 * 255 : ℚ) / 767) = 1 ∧ (0 : ℕ) ≠ 1 := by
  refine ⟨?_, ?_, ?_, by norm_num [round_eq], by norm_num⟩
  · simpa [rampFrame] using npMin_ramp_general 767
  · simpa [rampFrame] using npMax_ramp_general 767
  · have h2 : rampFrame[2]? = some (.fin 2) := by
      rw [rampFrame, List.getElem?_map]
      simp
    rw [tempsToRescaledUints, tempsToRescaledPre, List.getElem?_map, List.getElem?_map,
      List.getElem?_map, h2]
    norm_num [nanToNum, rescaleVal, fsub, fmul, fdiv, toUint8, truncToZero]

/-- C2 counterexample: on a frame whose first sample is NaN and whose
other samples are 1.0, the recorded `temp_min` is NaN — `np.min` runs on
the raw buffer at line 86, before the `np.nan_to_num` of line 103 — while
computing the min as if non-finite samples were 0 would give 0. -/
theorem minmax_before_nan_cex :
    (pullRawImage initCamState (.ok nanFrame)).1.tempMin = some .nan ∧
    npMin (nanFrame.map nanToNum) = .fin 0 ∧
    some FVal.nan ≠ some (FVal.fin 0) := by
  refine ⟨?_, ?_, by simp⟩
  · rw [show (pullRawImage initCamState (.ok nanFrame)).1.tempMin
        = some (npMin nanFrame) from rfl,
      npMin_eq_nan_of_mem nanFrame
        (show FVal.nan ∈ FVal.nan :: List.replicate 767 (FVal.fin 1) from
          List.mem_cons_self _ _)]
  · have h : nanFrame.map nanToNum = .fin 0 :: List.replicate 767 (.fin 1) := by
      rw [nanFrame, List.map_cons, List.map_replicate]
      rfl
    rw [h]
    exact npMin_fin_cons_replicate 0 1 767 (by norm_num)

/-- C2 amended: non-finite samples are zeroed only inside
`__temps_to_rescaled_uints`, AFTER `temp_min`/`temp_max` have been taken
over the raw buffer; with any NaN present the recorded `temp_min` AND
`temp_max` are both NaN and every pre-cast rescaled value is NaN — the
frame is poisoned, not normalized as if the NaN were 0. -/
theorem nan_replaced_after_minmax (s : CamState) (d : List FVal) (hnan : .nan ∈ d) :
    (pullRawImage s (.ok d)).1.tempMin = some (npMin d) ∧
    (pullRawImage s (.ok d)).1.tempMax = some (npMax d) ∧
    (pullRawImage s (.ok d)).1.tempMin = some .nan ∧
    (pullRawImage s (.ok d)).1.tempMax = some .nan ∧
    (pullRawImage s (.ok d)).2 = .pixels (tempsToRescaledUints d (npMin d) (npMax d)) ∧
    ∀ v ∈ tempsToRescaledPre d (npMin d) (npMax d), v = .nan := by
  refine ⟨rfl, rfl, ?_, ?_, rfl, ?_⟩
  · rw [show (pullRawImage s (.ok d)).1.tempMin = some (npMin d) from rfl,
      npMin_eq_nan_of_mem d hnan]
  · rw [show (pullRawImage s (.ok d)).1.tempMax = some (npMax d) from rfl,
      npMax_eq_nan_of_mem d hnan]
  · intro v hv
    simp only [tempsToRescaledPre] at hv
    obtain ⟨w, hw, rfl⟩ := List.mem_map.mp hv
    rw [npMin_eq_nan_of_mem d hnan, rescaleVal_nan_tmin]

/-- C2 witness: the poisoning evaluated on the two-sample frame
`[NaN, 1.0]`: both recorded extremes are NaN and both rescaled values are
NaN. -/
theorem nan_replaced_after_minmax_witness :
    (pullRawImage initCamState (.ok [.nan, .fin 1])).1.tempMin = some .nan ∧
    (pullRawImage initCamState (.ok [.nan, .fin 1])).1.tempMax = some .nan ∧
    tempsToRescaledPre [.nan, .fin 1] (npMin [.nan, .fin 1]) (npMax [.nan, .fin 1])
      = [.nan, .nan] := by
  have h := nan_replaced_after_minmax initCamState [.nan, .fin 1]
    (List.mem_cons_self _ _)
  refine ⟨h.2.2.1, h.2.2.2.1, ?_⟩
  have hmin : npMin [FVal.nan, FVal.fin 1] = .nan := rfl
  rw [tempsToRescaledPre, hmin]
  rw [show ([FVal.nan, FVal.fin 1].map nanToNum) = [FVal.fin 0, FVal.fin 1] from rfl]
  rw [show [FVal.fin 0, FVal.fin 1].map (rescaleVal .nan (npMax [FVal.nan, FVal.fin 1]))
      = [rescaleVal .nan (npMax [FVal.nan, FVal.fin 1]) (.fin 0),
         rescaleVal .nan (npMax [FVal.nan, FVal.fin 1]) (.fin 1)] from rfl,
    rescaleVal_nan_tmin, rescaleVal_nan_tmin]

/-- C3: on the uniform 20.0 frame the rescale DOES divide by zero — the
denominator `Tmax - Tmin` is exactly 0 and every pre-cast value is the
NaN of `0/0` (numpy raises no exception, only a warning) — and the
`np.uint8` cast of NaN that follows is C-undefined, so the all-zero
output the claim describes is platform happenstance, not a defined
result. -/
theorem uniform_frame_division_by_zero :
    npMin uniformFrame = .fin 20 ∧ npMax uniformFrame = .fin 20 ∧
    fsub (npMax uniformFrame) (npMin uniformFrame) = .fin 0 ∧
    rescaleVal (.fin 20) (.fin 20) (nanToNum (.fin 20)) = fdiv (.fin 0) (.fin 0) ∧
    fdiv (.fin 0) (.fin 0) = .nan ∧
    tempsToRescaledPre uniformFrame (.fin 20) (.fin 20) = List.replicate 768 .nan := by
  have hu : uniformFrame = .fin 20 :: List.replicate 767 (.fin 20) := by
    rw [uniformFrame, show (768 : ℕ) = 767 + 1 from rfl, List.replicate_succ]
  have hmin : npMin uniformFrame = .fin 20 := by
    rw [hu]; exact npMin_fin_cons_replicate 20 20 767 le_rfl
  have hmax : npMax uniformFrame = .fin 20 := by
    rw [hu]; exact npMax_fin_cons_replicate 20 20 767 le_rfl
  refine ⟨hmin, hmax, ?_, ?_, ?_, ?_⟩
  · rw [hmin, hmax]; simp [fsub]
  · simp [rescaleVal, nanToNum, fsub, fmul]
  · simp [fdiv]
  · rw [tempsToRescaledPre, uniformFrame, List.map_replicate, List.map_replicate]
    simp [rescaleVal, nanToNum, fsub, fmul, fdiv]

/-- C4: `image = self.blank_image` aliases the cached frame, and a
successful `getFrame` fills it in place — so after one successful read of
a frame of 1.0s, a faulting read returns those stale 1.0s, NOT an
all-zero frame; `temp_min` does keep its previous value and the fault is
not propagated (the claim is right on those parts). -/
theorem fault_returns_stale_frame :
    (pullRawImage initCamState (.ok onesFrame)).1.blankImage = onesFrame ∧
    (pullRawImage (pullRawImage initCamState (.ok onesFrame)).1 .osError).2
      = .rawFloats onesFrame ∧
    RawImage.rawFloats onesFrame ≠ .rawFloats initCamState.blankImage ∧
    (pullRawImage (pullRawImage initCamState (.ok onesFrame)).1 .osError).1.tempMin
      = some (npMin onesFrame) ∧
    npMin onesFrame = .fin 1 := by
  refine ⟨rfl, rfl, ?_, rfl, ?_⟩
  · intro h
    rw [RawImage.rawFloats.injEq] at h
    have h0 := congrArg (fun l => l[0]?) h
    simp only [onesFrame, initCamState, List.getElem?_replicate] at h0
    norm_num at h0
  · rw [show onesFrame = .fin 1 :: List.replicate 767 (.fin 1) by
      rw [onesFrame, show (768 : ℕ) = 767 + 1 from rfl, List.replicate_succ]]
    exact npMin_fin_cons_replicate 1 1 767 le_rfl
